import Mathlib

/-!
Verification of the wall-clock-synchronized interval scheduler
("time-into-interval") of the ESP32-S3 components repository.

The public surface is declared in
`components/schedule/esp_time_into_interval/include/time_into_interval.h`.
The implementation file is not part of the source tree, so the scheduler's
behaviour is modelled from the specification (its data model in §3, the
boundary-computation algorithm in §4.3, the clock contract in §4.2 and the
error-handling design in §7), with the header's declarations and
documentation fixing names, types and the validation bounds.
-/

/-- Granularity enumeration from `time_into_interval_types_e` in
time_into_interval.h: seconds, minutes, hours. -/
inductive time_into_interval_types_t where
  | sec
  | min
  | hr
deriving DecidableEq, Repr

/-- Configuration record from `time_into_interval_config_t` in
time_into_interval.h: a diagnostic name of at most 25 characters, an interval
type, a non-zero interval period and an interval offset that must be smaller
than the period (both uint16 in the header, modelled as Nat). -/
structure time_into_interval_config_t where
  name : String
  interval_type : time_into_interval_types_t
  interval_period : Nat
  interval_offset : Nat
deriving DecidableEq, Repr

/-- Error kinds from the specification's error-handling design (§7). -/
inductive tii_err where
  | invalid_argument
  | clock_unavailable
  | not_initialized
  | invalid_handle
deriving DecidableEq, Repr

/-- Modelled from the spec: `time_into_interval_normalize_interval_to_sec`
(declared in time_into_interval.h, body missing from the tree) multiplies the
value by 1 for seconds, 60 for minutes and 3600 for hours. -/
def time_into_interval_normalize_interval_to_sec
    (interval_type : time_into_interval_types_t) (interval : Nat) : Nat :=
  match interval_type with
  | .sec => interval * 1
  | .min => interval * 60
  | .hr  => interval * 3600

/-- Modelled from the spec: `time_into_interval_normalize_interval_to_msec`
(declared in time_into_interval.h, body missing from the tree) is the
second-normalized value times 1000. -/
def time_into_interval_normalize_interval_to_msec
    (interval_type : time_into_interval_types_t) (interval : Nat) : Nat :=
  time_into_interval_normalize_interval_to_sec interval_type interval * 1000

/-- Modelled from the spec: the scheduler state held behind
`time_into_interval_handle_t` (the implementation file is missing from the
tree). It keeps the configured interval type and period, the normalized
period and offset in epoch milliseconds, and the last/next boundary
timestamps, both unset before the first evaluation (§3). -/
structure tii_state where
  interval_type : time_into_interval_types_t
  interval_period : Nat
  period_ms : Nat
  offset_ms : Nat
  epoch_last : Option Nat
  epoch_next : Option Nat
deriving DecidableEq, Repr

/-- Modelled from the spec: `time_into_interval_init` validates the
configuration — `InvalidArgument` when the period is zero, the offset is not
smaller than the period, or the name exceeds 25 characters (§4.1, §7, and the
field documentation of `time_into_interval_config_t` in the header) — and on
success returns a fresh state with both boundary timestamps unset. -/
def time_into_interval_init (cfg : time_into_interval_config_t) :
    Except tii_err tii_state :=
  if cfg.interval_period = 0 then .error .invalid_argument
  else if cfg.interval_period ≤ cfg.interval_offset then .error .invalid_argument
  else if 25 < cfg.name.length then .error .invalid_argument
  else .ok {
    interval_type := cfg.interval_type
    interval_period := cfg.interval_period
    period_ms := time_into_interval_normalize_interval_to_msec cfg.interval_type cfg.interval_period
    offset_ms := time_into_interval_normalize_interval_to_msec cfg.interval_type cfg.interval_offset
    epoch_last := none
    epoch_next := none }

/-- The state a successful `time_into_interval_init` produces; used to phrase
success cases without an existential. -/
def tii_fresh (cfg : time_into_interval_config_t) : tii_state :=
  { interval_type := cfg.interval_type
    interval_period := cfg.interval_period
    period_ms := time_into_interval_normalize_interval_to_msec cfg.interval_type cfg.interval_period
    offset_ms := time_into_interval_normalize_interval_to_msec cfg.interval_type cfg.interval_offset
    epoch_last := none
    epoch_next := none }

/-- Modelled from the spec: the most recent aligned boundary at or before
`now_ms` (§4.3 step 3), `aligned = now_ms - ((now_ms - offset_ms) mod period_ms)`. -/
def tii_aligned (period_ms offset_ms now_ms : Nat) : Nat :=
  now_ms - ((now_ms - offset_ms) % period_ms)

/-- Modelled from the spec: `time_into_interval` (the non-blocking poll,
§4.3 steps 1-5). A zero clock reading fails with `ClockUnavailable` and leaves
the state unchanged; otherwise the aligned boundary is computed and the
interval has elapsed exactly when the boundary is new (first evaluation or
strictly past the stored last event), in which case the last/next timestamps
advance to it. -/
def time_into_interval (s : tii_state) (now_ms : Nat) :
    (Except tii_err Bool) × tii_state :=
  if now_ms = 0 then (.error .clock_unavailable, s)
  else
    match s.epoch_last with
    | none =>
        (.ok true,
         { s with
             epoch_last := some (tii_aligned s.period_ms s.offset_ms now_ms)
             epoch_next := some (tii_aligned s.period_ms s.offset_ms now_ms + s.period_ms) })
    | some last =>
        if last < tii_aligned s.period_ms s.offset_ms now_ms then
          (.ok true,
           { s with
               epoch_last := some (tii_aligned s.period_ms s.offset_ms now_ms)
               epoch_next := some (tii_aligned s.period_ms s.offset_ms now_ms + s.period_ms) })
        else (.ok false, s)

/-- Modelled from the spec: the next boundary `time_into_interval_delay`
derives before sleeping (§4.3: the stored next event, advanced first when a
boundary has already passed, or computed fresh on the first evaluation). -/
def tii_derived_next (s : tii_state) (now_ms : Nat) : Nat :=
  match s.epoch_last with
  | none => tii_aligned s.period_ms s.offset_ms now_ms + s.period_ms
  | some last =>
      if last < tii_aligned s.period_ms s.offset_ms now_ms then
        tii_aligned s.period_ms s.offset_ms now_ms + s.period_ms
      else last + s.period_ms

/-- Modelled from the spec: `time_into_interval_delay` (§4.3). A zero clock
reading fails with `ClockUnavailable` leaving the state unchanged; otherwise
the call returns the computed sleep duration `max 0 (next - now)` in
milliseconds together with the state after waking, in which the last event is
the boundary the task slept until and the next event is one period later. -/
def time_into_interval_delay (s : tii_state) (now_ms : Nat) :
    (Except tii_err Int) × tii_state :=
  if now_ms = 0 then (.error .clock_unavailable, s)
  else
    (.ok (max 0 ((tii_derived_next s now_ms : Int) - (now_ms : Int))),
     { s with
         epoch_last := some (tii_derived_next s now_ms)
         epoch_next := some (tii_derived_next s now_ms + s.period_ms) })

/-- Modelled from the spec: `time_into_interval_get_last_event` returns the
stored snapshot, `NotInitialized` before any successful evaluation (§4.3, §7). -/
def time_into_interval_get_last_event (s : tii_state) : Except tii_err Nat :=
  match s.epoch_last with
  | none => .error .not_initialized
  | some t => .ok t

/-- Modelled from the spec: `time_into_interval_get_next_event` returns the
stored snapshot, `NotInitialized` before any successful evaluation (§4.3, §7). -/
def time_into_interval_get_next_event (s : tii_state) : Except tii_err Nat :=
  match s.epoch_next with
  | none => .error .not_initialized
  | some t => .ok t

/-- Modelled from the spec: `time_into_interval_get_interval` returns the
bound configuration's interval type and period. -/
def time_into_interval_get_interval (s : tii_state) :
    Except tii_err (time_into_interval_types_t × Nat) :=
  .ok (s.interval_type, s.interval_period)

/-- Modelled from the spec: `time_into_interval_handle_t` at the call
boundary — `none` stands for a null or already deleted handle (§7). -/
abbrev tii_handle := Option tii_state

/-- Handle-level poll: `InvalidHandle` on a null or deleted handle, with no
state to mutate; otherwise the state-level poll. -/
def time_into_interval_h (h : tii_handle) (now_ms : Nat) :
    (Except tii_err Bool) × tii_handle :=
  match h with
  | none => (.error .invalid_handle, none)
  | some s =>
      ((time_into_interval s now_ms).1, some (time_into_interval s now_ms).2)

/-- Handle-level delay: `InvalidHandle` on a null or deleted handle. -/
def time_into_interval_delay_h (h : tii_handle) (now_ms : Nat) :
    (Except tii_err Int) × tii_handle :=
  match h with
  | none => (.error .invalid_handle, none)
  | some s =>
      ((time_into_interval_delay s now_ms).1, some (time_into_interval_delay s now_ms).2)

/-- Handle-level last-event accessor: `InvalidHandle` on a null or deleted
handle. -/
def time_into_interval_get_last_event_h (h : tii_handle) : Except tii_err Nat :=
  match h with
  | none => .error .invalid_handle
  | some s => time_into_interval_get_last_event s

/-- Handle-level next-event accessor: `InvalidHandle` on a null or deleted
handle. -/
def time_into_interval_get_next_event_h (h : tii_handle) : Except tii_err Nat :=
  match h with
  | none => .error .invalid_handle
  | some s => time_into_interval_get_next_event s

/-- Handle-level interval accessor: `InvalidHandle` on a null or deleted
handle. -/
def time_into_interval_get_interval_h (h : tii_handle) :
    Except tii_err (time_into_interval_types_t × Nat) :=
  match h with
  | none => .error .invalid_handle
  | some s => time_into_interval_get_interval s

/-- Modelled from the spec: `time_into_interval_delete` releases the handle;
deleting a null or already deleted handle reports `InvalidHandle` (§7). -/
def time_into_interval_delete (h : tii_handle) :
    (Except tii_err Unit) × tii_handle :=
  match h with
  | none => (.error .invalid_handle, none)
  | some _ => (.ok (), none)

/-- States reachable from a successful `time_into_interval_init` through
successful poll and delay evaluations. Per the clock contract (§4.2) a
non-sentinel reading is a genuine epoch timestamp, hence at least the
configured millisecond offset. -/
inductive tii_reachable : tii_state → Prop where
  | init : ∀ cfg s, time_into_interval_init cfg = .ok s → tii_reachable s
  | poll : ∀ s now b s', tii_reachable s → s.offset_ms ≤ now →
      time_into_interval s now = (.ok b, s') → tii_reachable s'
  | delay : ∀ s now d s', tii_reachable s → s.offset_ms ≤ now →
      time_into_interval_delay s now = (.ok d, s') → tii_reachable s'

/-- Structural invariant of the scheduler state: the normalized period is
positive, the normalized offset smaller, the next event is unset before the
first evaluation, and once the last event is set the next event is exactly one
period later and the last event is congruent to the offset modulo the period. -/
def tii_inv (s : tii_state) : Prop :=
  0 < s.period_ms ∧ s.offset_ms < s.period_ms ∧
  (s.epoch_last = none → s.epoch_next = none) ∧
  ∀ l, s.epoch_last = some l →
    s.epoch_next = some (l + s.period_ms) ∧
    l % s.period_ms = s.offset_ms % s.period_ms

theorem tii_aligned_le (p o n : Nat) : tii_aligned p o n ≤ n :=
  Nat.sub_le _ _

theorem tii_aligned_mod (p o n : Nat) (ho : o ≤ n) :
    tii_aligned p o n % p = o % p := by
  obtain ⟨c, hc⟩ := Nat.dvd_sub_mod (n := p) (n - o)
  have h1 : (n - o) % p ≤ n - o := Nat.mod_le _ _
  have h2 : tii_aligned p o n = o + p * c := by
    unfold tii_aligned
    rw [← hc, ← Nat.add_sub_assoc h1 o, Nat.add_sub_cancel' ho]
  rw [h2, Nat.add_mul_mod_self_left]

theorem tii_le_aligned (p o n : Nat) (ho : o ≤ n) : o ≤ tii_aligned p o n := by
  unfold tii_aligned
  have h1 : (n - o) % p ≤ n - o := Nat.mod_le _ _
  omega

theorem tii_lt_aligned_add_period (p o n : Nat) (hp : 0 < p) :
    n < tii_aligned p o n + p := by
  unfold tii_aligned
  have h1 : (n - o) % p < p := Nat.mod_lt _ hp
  omega

theorem tii_aligned_greatest (p o n k : Nat) (hp : 0 < p) (ho : o ≤ n)
    (hk : k ≤ n) (hmod : k % p = o % p) : k ≤ tii_aligned p o n := by
  by_contra hcon
  push_neg at hcon
  have hmod2 : tii_aligned p o n % p = o % p := tii_aligned_mod p o n ho
  have hdvd : p ∣ k - tii_aligned p o n := by
    have hmeq : tii_aligned p o n ≡ k [MOD p] := by
      unfold Nat.ModEq
      rw [hmod, hmod2]
    exact (Nat.modEq_iff_dvd' (Nat.le_of_lt hcon)).mp hmeq
  have hge : p ≤ k - tii_aligned p o n :=
    Nat.le_of_dvd (by omega) hdvd
  have hlt : n < tii_aligned p o n + p := tii_lt_aligned_add_period p o n hp
  omega

theorem tii_aligned_window (p o b t : Nat) (hp : 0 < p) (hob : o ≤ b)
    (hbmod : b % p = o % p) (h1 : b ≤ t) (h2 : t < b + p) :
    tii_aligned p o t = b := by
  have hot : o ≤ t := le_trans hob h1
  have hle : b ≤ tii_aligned p o t := tii_aligned_greatest p o t b hp hot h1 hbmod
  by_contra hne
  have hlt : b < tii_aligned p o t := lt_of_le_of_ne hle (fun h => hne h.symm)
  have hmod2 : tii_aligned p o t % p = o % p := tii_aligned_mod p o t hot
  have hdvd : p ∣ tii_aligned p o t - b := by
    have hmeq : b ≡ tii_aligned p o t [MOD p] := by
      unfold Nat.ModEq
      rw [hbmod, hmod2]
    exact (Nat.modEq_iff_dvd' hle).mp hmeq
  have hge : p ≤ tii_aligned p o t - b := Nat.le_of_dvd (by omega) hdvd
  have hat : tii_aligned p o t ≤ t := tii_aligned_le p o t
  omega

/-- C1: with a positive period and a clock reading at or past the offset (any
genuine epoch reading, per the clock contract), the most recent aligned
boundary `now - ((now - offset) % period)` is at most `now`, congruent to the
offset modulo the period, and the largest such timestamp; moreover for a
5-minute interval with 1-minute offset and the clock fixed at 12:03:00
(epoch 1704110580 s, 2024-01-01 UTC) the boundary is 12:01:00
(epoch 1704110460 s) and the next boundary 12:06:00 (epoch 1704110760 s). -/
theorem tii_C1_alignment (p o n : Nat) (hp : 0 < p) (ho : o ≤ n) :
    tii_aligned p o n ≤ n ∧
    tii_aligned p o n % p = o % p ∧
    (∀ k, k ≤ n → k % p = o % p → k ≤ tii_aligned p o n) ∧
    tii_aligned (time_into_interval_normalize_interval_to_msec .min 5)
      (time_into_interval_normalize_interval_to_msec .min 1) 1704110580000 =
      1704110460000 ∧
    tii_aligned (time_into_interval_normalize_interval_to_msec .min 5)
        (time_into_interval_normalize_interval_to_msec .min 1) 1704110580000 +
      time_into_interval_normalize_interval_to_msec .min 5 = 1704110760000 :=
  ⟨tii_aligned_le p o n, tii_aligned_mod p o n ho,
   fun k hk hm => tii_aligned_greatest p o n k hp ho hk hm,
   by decide, by decide⟩

/-- Witness for C1 at the concrete 12:03:00 instant. -/
theorem tii_C1_witness :
    tii_aligned 300000 60000 1704110580000 % 300000 = 60000 % 300000 :=
  (tii_C1_alignment 300000 60000 1704110580000 (by decide) (by decide)).2.1

/-- C3: a zero clock reading makes both poll and delay fail with
ClockUnavailable and leaves the whole scheduler state — in particular the
last/next event timestamps — exactly as it was before the call. -/
theorem tii_C3_clock_zero (s : tii_state) :
    time_into_interval s 0 = (.error .clock_unavailable, s) ∧
    time_into_interval_delay s 0 = (.error .clock_unavailable, s) ∧
    (time_into_interval s 0).2.epoch_last = s.epoch_last ∧
    (time_into_interval s 0).2.epoch_next = s.epoch_next ∧
    (time_into_interval_delay s 0).2.epoch_last = s.epoch_last ∧
    (time_into_interval_delay s 0).2.epoch_next = s.epoch_next :=
  ⟨rfl, rfl, rfl, rfl, rfl, rfl⟩

/-- C5: spec creation fails with InvalidArgument exactly when the period is
zero, the offset is not below the period, or the name exceeds 25 characters;
on every valid configuration it succeeds and yields the fresh state with both
boundary timestamps unset. -/
theorem tii_C5_validation (cfg : time_into_interval_config_t) :
    (time_into_interval_init cfg = .error .invalid_argument ↔
      (cfg.interval_period = 0 ∨ cfg.interval_period ≤ cfg.interval_offset ∨
        25 < cfg.name.length)) ∧
    (¬(cfg.interval_period = 0 ∨ cfg.interval_period ≤ cfg.interval_offset ∨
        25 < cfg.name.length) →
      time_into_interval_init cfg = .ok (tii_fresh cfg) ∧
      (tii_fresh cfg).epoch_last = none ∧ (tii_fresh cfg).epoch_next = none) := by
  unfold time_into_interval_init
  by_cases h0 : cfg.interval_period = 0
  · simp [h0]
  · by_cases h1 : cfg.interval_period ≤ cfg.interval_offset
    · simp [h0, h1]
    · by_cases h2 : 25 < cfg.name.length
      · simp [h0, h1, h2]
      · simp [h0, h1, h2, tii_fresh]

/-- Concrete valid configuration: 5 minutes, 1 minute offset. -/
def cfg_c5 : time_into_interval_config_t :=
  { name := "uv-sample", interval_type := .min, interval_period := 5,
    interval_offset := 1 }

/-- Witness for C5: the concrete valid configuration is accepted. -/
theorem tii_C5_witness :
    time_into_interval_init cfg_c5 = .ok (tii_fresh cfg_c5) :=
  ((tii_C5_validation cfg_c5).2 (by decide)).1

/-- C6: the normalization functions are total multiplications — by 1 for
seconds, 60 for minutes, 3600 for hours — the millisecond variant is exactly
1000 times the second variant, and for every representable uint16 value the
millisecond result stays below 2^64 (no 64-bit wraparound). -/
theorem tii_C6_normalize (t : time_into_interval_types_t) (v : Nat)
    (hv : v ≤ 65535) :
    time_into_interval_normalize_interval_to_sec .sec v = v * 1 ∧
    time_into_interval_normalize_interval_to_sec .min v = v * 60 ∧
    time_into_interval_normalize_interval_to_sec .hr v = v * 3600 ∧
    time_into_interval_normalize_interval_to_msec t v =
      1000 * time_into_interval_normalize_interval_to_sec t v ∧
    time_into_interval_normalize_interval_to_msec t v < 2 ^ 64 := by
  have h64 : (2 : Nat) ^ 64 = 18446744073709551616 := by norm_num
  refine ⟨rfl, rfl, rfl, ?_, ?_⟩
  · unfold time_into_interval_normalize_interval_to_msec
    exact Nat.mul_comm _ 1000
  · rw [h64]
    cases t <;>
      simp only [time_into_interval_normalize_interval_to_msec,
        time_into_interval_normalize_interval_to_sec] <;>
      omega

/-- Witness for C6 at the largest uint16 value and the coarsest granularity. -/
theorem tii_C6_witness :
    time_into_interval_normalize_interval_to_msec .hr 65535 < 2 ^ 64 :=
  (tii_C6_normalize .hr 65535 (by decide)).2.2.2.2

/-- C9: every public operation invoked on a null or already-deleted handle
fails with InvalidHandle and mutates nothing (the handle stays `none`);
deleting a live handle succeeds and leaves a deleted handle on which
operations again report InvalidHandle. -/
theorem tii_C9_invalid_handle (now : Nat) :
    time_into_interval_h none now = (.error .invalid_handle, none) ∧
    time_into_interval_delay_h none now = (.error .invalid_handle, none) ∧
    time_into_interval_get_last_event_h none = .error .invalid_handle ∧
    time_into_interval_get_next_event_h none = .error .invalid_handle ∧
    time_into_interval_get_interval_h none = .error .invalid_handle ∧
    time_into_interval_delete none = (.error .invalid_handle, none) ∧
    (∀ s : tii_state, time_into_interval_delete (some s) = (.ok (), none)) ∧
    (∀ s : tii_state,
      time_into_interval_h (time_into_interval_delete (some s)).2 now =
        (.error .invalid_handle, none)) :=
  ⟨rfl, rfl, rfl, rfl, rfl, rfl, fun _ => rfl, fun _ => rfl⟩

theorem tii_poll_true_eq (s s' : tii_state) (t : Nat)
    (h : time_into_interval s t = (.ok true, s')) :
    t ≠ 0 ∧
    s' = { s with
      epoch_last := some (tii_aligned s.period_ms s.offset_ms t)
      epoch_next := some (tii_aligned s.period_ms s.offset_ms t + s.period_ms) } ∧
    (∀ last, s.epoch_last = some last →
      last < tii_aligned s.period_ms s.offset_ms t) := by
  unfold time_into_interval at h
  split at h <;> rename_i ht
  · simp at h
  · refine ⟨ht, ?_⟩
    split at h
    · rename_i hL
      simp only [Prod.mk.injEq] at h
      refine ⟨h.2.symm, ?_⟩
      intro last hlast
      rw [hL] at hlast
      simp at hlast
    · rename_i last hL
      split at h <;> rename_i hlt
      · simp only [Prod.mk.injEq] at h
        refine ⟨h.2.symm, ?_⟩
        intro last2 hlast2
        rw [hL] at hlast2
        rw [Option.some.inj hlast2] at hlt
        exact hlt
      · simp at h

theorem tii_poll_false_eq (s s' : tii_state) (t : Nat)
    (h : time_into_interval s t = (.ok false, s')) :
    t ≠ 0 ∧ s' = s ∧
    ∃ last, s.epoch_last = some last ∧
      tii_aligned s.period_ms s.offset_ms t ≤ last := by
  unfold time_into_interval at h
  split at h <;> rename_i ht
  · simp at h
  · refine ⟨ht, ?_⟩
    split at h
    · simp at h
    · rename_i last hL
      split at h <;> rename_i hlt
      · simp at h
      · simp only [Prod.mk.injEq] at h
        exact ⟨h.2.symm, last, hL, Nat.le_of_not_lt hlt⟩

/-- C2: polling is idempotent within a boundary window — once a poll at `t`
has returned true, every poll at a clock value still inside the window
`[b, b + period)` of the boundary `b` computed at `t` returns false and leaves
the state untouched, so true is reported at most once per boundary crossing. -/
theorem tii_C2_idempotent (s s' : tii_state) (t u : Nat)
    (hp : 0 < s.period_ms) (ho : s.offset_ms ≤ t)
    (h : time_into_interval s t = (.ok true, s'))
    (hu1 : tii_aligned s.period_ms s.offset_ms t ≤ u)
    (hu2 : u < tii_aligned s.period_ms s.offset_ms t + s.period_ms)
    (hu0 : u ≠ 0) :
    time_into_interval s' u = (.ok false, s') := by
  obtain ⟨ht, hs', -⟩ := tii_poll_true_eq s s' t h
  have hwin : tii_aligned s.period_ms s.offset_ms u =
      tii_aligned s.period_ms s.offset_ms t :=
    tii_aligned_window s.period_ms s.offset_ms _ u hp (tii_le_aligned _ _ _ ho)
      (tii_aligned_mod _ _ _ ho) hu1 hu2
  subst hs'
  unfold time_into_interval
  rw [if_neg hu0]
  simp [hwin]

/-- A fresh 5-second scheduler, as built by `time_into_interval_init`. -/
def s_c2 : tii_state :=
  { interval_type := .sec, interval_period := 5, period_ms := 5000,
    offset_ms := 0, epoch_last := none, epoch_next := none }

/-- The 5-second scheduler after a poll at 12000 ms fired the 10000 ms
boundary. -/
def s_c2a : tii_state :=
  { interval_type := .sec, interval_period := 5, period_ms := 5000,
    offset_ms := 0, epoch_last := some 10000, epoch_next := some 15000 }

/-- Witness for C2: after the poll at 12000 ms fired, a poll at 14000 ms
(inside the same 5-second window) returns false and leaves the state alone. -/
theorem tii_C2_witness :
    time_into_interval s_c2a 14000 = (.ok false, s_c2a) :=
  tii_C2_idempotent s_c2 s_c2a 12000 14000 (by decide) (by decide) rfl
    (by decide) (by decide) (by decide)

/-- C4: on any non-zero clock reading, delay returns exactly
`max 0 (next - now)` milliseconds of sleep where `next` is the boundary it
derives; the sleep is never negative, it is zero exactly when the derived
boundary is already due, and it is the plain difference otherwise; after
waking the last event equals that derived next event and the next event has
increased by one period; when no boundary has passed the derived next event is
the stored one, `last + period`. -/
theorem tii_C4_delay (s : tii_state) (now : Nat) (h0 : now ≠ 0) :
    (time_into_interval_delay s now).1 =
      .ok (max 0 ((tii_derived_next s now : Int) - (now : Int))) ∧
    (∀ d : Int, (time_into_interval_delay s now).1 = .ok d → 0 ≤ d) ∧
    (tii_derived_next s now ≤ now →
      (time_into_interval_delay s now).1 = .ok 0) ∧
    (now ≤ tii_derived_next s now →
      (time_into_interval_delay s now).1 =
        .ok ((tii_derived_next s now : Int) - (now : Int))) ∧
    (time_into_interval_delay s now).2.epoch_last =
      some (tii_derived_next s now) ∧
    (time_into_interval_delay s now).2.epoch_next =
      some (tii_derived_next s now + s.period_ms) ∧
    (∀ l, s.epoch_last = some l →
      tii_aligned s.period_ms s.offset_ms now ≤ l →
      tii_derived_next s now = l + s.period_ms) := by
  unfold time_into_interval_delay
  rw [if_neg h0]
  refine ⟨rfl, ?_, ?_, ?_, rfl, rfl, ?_⟩
  · intro d hd
    have h2 : max (0 : Int) ((tii_derived_next s now : Int) - (now : Int)) = d :=
      Except.ok.inj hd
    rw [← h2]
    exact le_max_left _ _
  · intro hle
    have hcast : (tii_derived_next s now : Int) ≤ (now : Int) := by
      exact_mod_cast hle
    have hmax : max (0 : Int) ((tii_derived_next s now : Int) - (now : Int)) = 0 :=
      max_eq_left (by omega)
    exact congrArg Except.ok hmax
  · intro hge
    have hcast : (now : Int) ≤ (tii_derived_next s now : Int) := by
      exact_mod_cast hge
    have hmax : max (0 : Int) ((tii_derived_next s now : Int) - (now : Int)) =
        (tii_derived_next s now : Int) - (now : Int) :=
      max_eq_right (by omega)
    exact congrArg Except.ok hmax
  · intro l hL hle
    unfold tii_derived_next
    rw [hL]
    show (if l < tii_aligned s.period_ms s.offset_ms now then
        tii_aligned s.period_ms s.offset_ms now + s.period_ms
      else l + s.period_ms) = l + s.period_ms
    rw [if_neg (Nat.not_lt.mpr hle)]

/-- Witness for C4: for the fired 5-second scheduler at 12000 ms the derived
next boundary is stored as the new last event after the delay. -/
theorem tii_C4_witness :
    (time_into_interval_delay s_c2a 12000).2.epoch_last =
      some (tii_derived_next s_c2a 12000) :=
  (tii_C4_delay s_c2a 12000 (by decide)).2.2.2.2.1

/-- C8: on a freshly created scheduler both accessors fail with
NotInitialized; after the first successful evaluation they return the stored
snapshot — the fired boundary and the boundary one period later. -/
theorem tii_C8_accessors (cfg : time_into_interval_config_t) (s : tii_state)
    (h : time_into_interval_init cfg = .ok s) :
    time_into_interval_get_last_event s = .error .not_initialized ∧
    time_into_interval_get_next_event s = .error .not_initialized ∧
    (∀ now r s', time_into_interval s now = (.ok r, s') →
      time_into_interval_get_last_event s' =
        .ok (tii_aligned s.period_ms s.offset_ms now) ∧
      time_into_interval_get_next_event s' =
        .ok (tii_aligned s.period_ms s.offset_ms now + s.period_ms)) := by
  have hfields : s.epoch_last = none ∧ s.epoch_next = none := by
    unfold time_into_interval_init at h
    split at h
    · simp at h
    · split at h
      · simp at h
      · split at h
        · simp at h
        · have hs := Except.ok.inj h
          subst hs
          exact ⟨rfl, rfl⟩
  refine ⟨?_, ?_, ?_⟩
  · unfold time_into_interval_get_last_event
    rw [hfields.1]
  · unfold time_into_interval_get_next_event
    rw [hfields.2]
  · intro now r s' hps
    cases r with
    | false =>
        obtain ⟨-, -, last, hlast, -⟩ := tii_poll_false_eq s s' now hps
        rw [hfields.1] at hlast
        simp at hlast
    | true =>
        obtain ⟨-, hs', -⟩ := tii_poll_true_eq s s' now hps
        subst hs'
        exact ⟨rfl, rfl⟩

/-- Witness for C8: the accessors of the freshly created 5-minute scheduler
report NotInitialized. -/
theorem tii_C8_witness :
    time_into_interval_get_last_event (tii_fresh cfg_c5) =
      .error .not_initialized :=
  (tii_C8_accessors cfg_c5 (tii_fresh cfg_c5) rfl).1

theorem tii_norm_msec_pos (t : time_into_interval_types_t) (v : Nat)
    (hv : 0 < v) : 0 < time_into_interval_normalize_interval_to_msec t v := by
  cases t <;>
    simp only [time_into_interval_normalize_interval_to_msec,
      time_into_interval_normalize_interval_to_sec] <;>
    omega

theorem tii_norm_msec_strict_mono (t : time_into_interval_types_t)
    (v w : Nat) (hv : v < w) :
    time_into_interval_normalize_interval_to_msec t v <
      time_into_interval_normalize_interval_to_msec t w := by
  cases t <;>
    simp only [time_into_interval_normalize_interval_to_msec,
      time_into_interval_normalize_interval_to_sec] <;>
    omega

theorem tii_derived_next_mod (s : tii_state) (now : Nat)
    (hofs : s.offset_ms ≤ now)
    (hinv : ∀ l, s.epoch_last = some l →
      l % s.period_ms = s.offset_ms % s.period_ms) :
    tii_derived_next s now % s.period_ms = s.offset_ms % s.period_ms := by
  unfold tii_derived_next
  cases hL : s.epoch_last with
  | none =>
      show (tii_aligned s.period_ms s.offset_ms now + s.period_ms) % s.period_ms =
        s.offset_ms % s.period_ms
      rw [Nat.add_mod_right]
      exact tii_aligned_mod _ _ _ hofs
  | some last =>
      show (if last < tii_aligned s.period_ms s.offset_ms now then
          tii_aligned s.period_ms s.offset_ms now + s.period_ms
        else last + s.period_ms) % s.period_ms = s.offset_ms % s.period_ms
      by_cases hlt : last < tii_aligned s.period_ms s.offset_ms now
      · rw [if_pos hlt, Nat.add_mod_right]
        exact tii_aligned_mod _ _ _ hofs
      · rw [if_neg hlt, Nat.add_mod_right]
        exact hinv last hL

theorem tii_reachable_inv (s : tii_state) (h : tii_reachable s) : tii_inv s := by
  induction h with
  | init cfg s hinit =>
      unfold time_into_interval_init at hinit
      split at hinit <;> rename_i h0
      · simp at hinit
      · split at hinit <;> rename_i h1
        · simp at hinit
        · split at hinit <;> rename_i h2
          · simp at hinit
          · have hs := Except.ok.inj hinit
            subst hs
            refine ⟨tii_norm_msec_pos _ _ (Nat.pos_of_ne_zero h0),
              tii_norm_msec_strict_mono _ _ _ (Nat.lt_of_not_le h1),
              fun _ => rfl, ?_⟩
            intro l hl
            simp at hl
  | poll s now b s' hreach hofs hstep ih =>
      cases b with
      | true =>
          obtain ⟨-, hs', -⟩ := tii_poll_true_eq s s' now hstep
          subst hs'
          refine ⟨ih.1, ih.2.1, by simp, ?_⟩
          intro l hl
          have hla : l = tii_aligned s.period_ms s.offset_ms now := by
            simp only [Option.some.injEq] at hl
            exact hl.symm
          subst hla
          exact ⟨rfl, tii_aligned_mod _ _ _ hofs⟩
      | false =>
          obtain ⟨-, hs', -⟩ := tii_poll_false_eq s s' now hstep
          subst hs'
          exact ih
  | delay s now d s' hreach hofs hstep ih =>
      by_cases hn : now = 0
      · rw [hn] at hstep
        simp [time_into_interval_delay] at hstep
      · unfold time_into_interval_delay at hstep
        rw [if_neg hn] at hstep
        simp only [Prod.mk.injEq] at hstep
        obtain ⟨-, hs'⟩ := hstep
        subst hs'
        refine ⟨ih.1, ih.2.1, by simp, ?_⟩
        intro l hl
        have hla : l = tii_derived_next s now := by
          simp only [Option.some.injEq] at hl
          exact hl.symm
        subst hla
        exact ⟨rfl, tii_derived_next_mod s now hofs
          (fun l hL => (ih.2.2.2 l hL).2)⟩

/-- Configuration of the C7 counterexample: a plain 5-second interval. -/
def cfg_c7 : time_into_interval_config_t :=
  { name := "cex", interval_type := .sec, interval_period := 5,
    interval_offset := 0 }

/-- The C7 counterexample scheduler, freshly created. -/
def s_c7_0 : tii_state :=
  { interval_type := .sec, interval_period := 5, period_ms := 5000,
    offset_ms := 0, epoch_last := none, epoch_next := none }

/-- The C7 counterexample scheduler after a poll at 12000 ms. -/
def s_c7a : tii_state :=
  { interval_type := .sec, interval_period := 5, period_ms := 5000,
    offset_ms := 0, epoch_last := some 10000, epoch_next := some 15000 }

/-- The C7 counterexample scheduler after a further poll at 25000 ms. -/
def s_c7b : tii_state :=
  { interval_type := .sec, interval_period := 5, period_ms := 5000,
    offset_ms := 0, epoch_last := some 25000, epoch_next := some 30000 }

/-- Counterexample to C7 as stated: on a reachable 5-second scheduler whose
next event is 15000 ms, a successful poll at 25000 ms (three boundaries after
the last fired one) moves the next event to 30000 ms — an increase of
15000 ms, not exactly one 5000 ms period. -/
theorem tii_C7_counterexample :
    time_into_interval_init cfg_c7 = .ok s_c7_0 ∧
    time_into_interval s_c7_0 12000 = (.ok true, s_c7a) ∧
    time_into_interval s_c7a 25000 = (.ok true, s_c7b) ∧
    s_c7a.epoch_next = some 15000 ∧
    s_c7b.epoch_next = some 30000 ∧
    s_c7a.period_ms = 5000 ∧
    (30000 : Nat) - 15000 ≠ 5000 :=
  ⟨rfl, rfl, rfl, rfl, rfl, rfl, by decide⟩

/-- C7 (amended): over all reachable states the normalized period is positive
and, once established, the next event always equals the last event plus one
period; after each evaluation that reports elapsed on an initialized scheduler
the next event strictly increases by a positive multiple of the period (one
period exactly when a single boundary was crossed); and a poll either leaves
the last event unchanged or sets it to a value at most the clock reading. -/
theorem tii_C7_invariant :
    (∀ s, tii_reachable s → tii_inv s) ∧
    (∀ s now s' n n', tii_reachable s → s.offset_ms ≤ now →
      time_into_interval s now = (.ok true, s') →
      s.epoch_next = some n → s'.epoch_next = some n' →
      ∃ k, 0 < k ∧ n' = n + s.period_ms * k) ∧
    (∀ s now b s' l, time_into_interval s now = (.ok b, s') →
      s'.epoch_last = some l → s.epoch_last = some l ∨ l ≤ now) := by
  refine ⟨fun s h => tii_reachable_inv s h, ?_, ?_⟩
  · intro s now s' n n' hreach hofs hstep hn hn'
    obtain ⟨-, hs', hlast⟩ := tii_poll_true_eq s s' now hstep
    have hinv := tii_reachable_inv s hreach
    cases hL : s.epoch_last with
    | none =>
        have hnone := hinv.2.2.1 hL
        rw [hn] at hnone
        simp at hnone
    | some l =>
        have hl := hinv.2.2.2 l hL
        have hl1 := hl.1
        rw [hn] at hl1
        have hnl : n = l + s.period_ms := Option.some.inj hl1
        have hla : l < tii_aligned s.period_ms s.offset_ms now := hlast l hL
        subst hs'
        have hn'2 : n' = tii_aligned s.period_ms s.offset_ms now + s.period_ms := by
          simp only [Option.some.injEq] at hn'
          exact hn'.symm
        have hma : tii_aligned s.period_ms s.offset_ms now % s.period_ms =
            s.offset_ms % s.period_ms := tii_aligned_mod _ _ _ hofs
        have hdvd : s.period_ms ∣ tii_aligned s.period_ms s.offset_ms now - l := by
          have hmeq : l ≡ tii_aligned s.period_ms s.offset_ms now [MOD s.period_ms] := by
            unfold Nat.ModEq
            rw [hl.2, hma]
          exact (Nat.modEq_iff_dvd' (Nat.le_of_lt hla)).mp hmeq
        obtain ⟨c, hc⟩ := hdvd
        have ha : tii_aligned s.period_ms s.offset_ms now = s.period_ms * c + l :=
          (Nat.sub_eq_iff_eq_add (Nat.le_of_lt hla)).mp hc
        have hc0 : 0 < c := by
          rcases Nat.eq_zero_or_pos c with h | h
          · subst h
            rw [Nat.mul_zero] at ha
            omega
          · exact h
        refine ⟨c, hc0, ?_⟩
        rw [hn'2, hnl, ha]
        ring
  · intro s now b s' l hstep hl'
    cases b with
    | true =>
        obtain ⟨-, hs', -⟩ := tii_poll_true_eq s s' now hstep
        subst hs'
        simp only [Option.some.injEq] at hl'
        right
        rw [← hl']
        exact tii_aligned_le _ _ _
    | false =>
        obtain ⟨-, hs', -⟩ := tii_poll_false_eq s s' now hstep
        subst hs'
        left
        exact hl'

/-- Witness for the amended C7: the invariant holds at the freshly created
5-second scheduler, which is reachable by construction. -/
theorem tii_C7_witness : 0 < s_c7_0.period_ms :=
  (tii_C7_invariant.1 s_c7_0 (tii_reachable.init cfg_c7 s_c7_0 rfl)).1
